import Mathlib

/-!
Verification development for the Husqvarna 701 RAG support system
(`src/husqbot/core/rag_system.py`, `safety_enhancement.py`,
`response_enhancement.py`).

Modelling conventions:
* Python strings are modelled as `List Char` (ASCII-oriented: Python's
  whitespace classes and `\d`, `\s` regex classes are modelled over the
  ASCII characters they match; the manuals' content is ASCII-dominant).
* Python floats are modelled as exact rationals `ℚ`.  All float values the
  code compares (similarities, overlap ratios, thresholds 0.65/0.7) are
  short decimals whose comparisons agree with exact rational arithmetic.
* `re.search(pat, s)` for the patterns used by the code is unfolded into
  the equivalent substring/scan conditions (each such equivalence is noted
  at the definition that uses it).
* Fallible Python code (raising) is modelled with `Except`/`Option`.
-/

namespace Husqbot

/-- A Python string, modelled as its list of characters. -/
abbrev Str := List Char

/-- The whitespace characters of Python's `str.split()` / `str.strip()` and
of the regex class `\s` (ASCII part): space, tab, newline, vertical tab,
form feed, carriage return. -/
def isSpace (c : Char) : Bool :=
  c == ' ' || c == '\t' || c == '\n' || c == '\x0b' || c == '\x0c' || c == '\r'

/-- Python `str.lower()` (ASCII model). -/
def lowerStr (s : Str) : Str := s.map Char.toLower

/-- Python `str.strip()`: remove leading and trailing whitespace. -/
def pyStrip (s : Str) : Str :=
  (((s.dropWhile isSpace).reverse.dropWhile isSpace)).reverse

/-- Python `str.split()` with no argument: split on runs of whitespace,
discarding empty pieces. -/
def pySplit (s : Str) : List Str :=
  (List.splitOnP isSpace s).filter (fun w => !w.isEmpty)

/-- Python's substring test `needle in hay`. -/
def strContains (hay needle : Str) : Bool :=
  hay.tails.any (fun t => needle.isPrefixOf t)

/-- Python `sep.join(parts)`. -/
def strJoin (sep : Str) : List Str → Str
  | [] => []
  | [x] => x
  | x :: y :: ys => x ++ sep ++ strJoin sep (y :: ys)

theorem dropWhile_dropWhile (p : α → Bool) (l : List α) :
    (l.dropWhile p).dropWhile p = l.dropWhile p := by
  cases h : l.dropWhile p with
  | nil => simp
  | cons x xs =>
    have hx := List.head?_dropWhile_not p l
    rw [h] at hx
    simp only [List.head?_cons] at hx
    simp [List.dropWhile_cons, hx]

theorem pyStrip_idem (s : Str) : pyStrip (pyStrip s) = pyStrip s := by
  unfold pyStrip
  generalize hA : s.dropWhile isSpace = A
  generalize hC : A.reverse.dropWhile isSpace = C
  have hCsuf : C <:+ A.reverse := hC ▸ List.dropWhile_suffix isSpace
  have hCpre : C.reverse <+: A := by
    have := List.reverse_prefix.mpr hCsuf
    rwa [List.reverse_reverse] at this
  have hstep1 : C.reverse.dropWhile isSpace = C.reverse := by
    cases hcr : C.reverse with
    | nil => simp
    | cons x t =>
      obtain ⟨r, hr⟩ := hCpre
      rw [hcr] at hr
      have hx : isSpace x = false := by
        have hh := List.head?_dropWhile_not isSpace s
        rw [hA] at hh
        rw [← hr] at hh
        simpa using hh
      simp [List.dropWhile_cons, hx]
  rw [hstep1, List.reverse_reverse, ← hC, dropWhile_dropWhile, hC]

theorem strContains_mono {hay a b : Str} (hb : strContains hay b = true)
    (hab : a <+: b) : strContains hay a = true := by
  unfold strContains at *
  rw [List.any_eq_true] at hb ⊢
  obtain ⟨t, ht, hpre⟩ := hb
  refine ⟨t, ht, ?_⟩
  rw [ List.isPrefixOf_iff_prefix] at hpre ⊢
  exact hab.trans hpre

theorem strJoin_length (sep : Str) :
    ∀ parts : List Str,
      (strJoin sep parts).length
        = (parts.map List.length).sum + sep.length * (parts.length - 1)
  | [] => by simp [strJoin]
  | [x] => by simp [strJoin]
  | x :: y :: ys => by
    have ih := strJoin_length sep (y :: ys)
    simp only [strJoin, List.length_append, List.map_cons, List.sum_cons,
      List.length_cons, Nat.add_sub_cancel] at ih ⊢
    rw [ih, Nat.mul_succ]
    omega

/-! ## Data model: retrieved rows and chunk dictionaries -/

/-- A row of the BigQuery similarity search (`search_similar_chunks`, the
columns selected at `rag_system.py:91-104`).  `similarity` and `distance`
are the float columns computed by the SQL; they are inputs here. -/
structure Row where
  chunk_id : Str
  content : Str
  source : Str
  page_number : Nat
  safety_level : Nat
  distance : ℚ
  similarity : ℚ
deriving DecidableEq

/-- A chunk dictionary as built by `search_similar_chunks`
(`rag_system.py:132-140`) and consumed by the rest of the pipeline. -/
structure Chunk where
  chunk_id : Str
  content : Str
  source : Str
  page_number : Nat
  safety_level : Nat
  similarity : ℚ
  distance : ℚ
deriving DecidableEq

/-- `set(s.lower().split())`: the lowercase word set of a string. -/
def wordSet (s : Str) : Finset Str := (pySplit (lowerStr s)).toFinset

/-- The lowercase word set of a chunk's stripped content, as both dedupe
loops compute it (`content = chunk['content'].strip()`, then
`set(content.lower().split())`). -/
def chunkWords (c : Chunk) : Finset Str := wordSet (pyStrip c.content)

/-- The duplicate test of both dedupe loops (`rag_system.py:123-129` and
`rag_system.py:224-231`): both word sets non-empty and
`|intersection| / min(|candidate|, |seen|)` strictly above the
threshold. -/
def dupB (thr : ℚ) (cw ew : Finset Str) : Bool :=
  decide (0 < cw.card) && decide (0 < ew.card) &&
    decide (thr < ((cw ∩ ew).card : ℚ) / (min cw.card ew.card : ℚ))

/-- The accept/reject loop of `_consolidate_similar_chunks`
(`rag_system.py:210-236`), with the threshold as a parameter (the source
hard-codes `0.7` here and `0.65` in `search_similar_chunks`).  `used` is
the running set of accepted (stripped) content strings; Python's `set` is
modelled as a list, since the loop only tests an existential over it. -/
def consolidateLoop (thr : ℚ) : List Chunk → List Str → List Chunk
  | [], _ => []
  | c :: cs, used =>
    if used.any (fun e => dupB thr (wordSet (pyStrip c.content)) (wordSet e)) then
      consolidateLoop thr cs used
    else
      c :: consolidateLoop thr cs (used ++ [pyStrip c.content])

/-- Comparator of the final `consolidated.sort(key=lambda x: x['similarity'],
reverse=True)` (`rag_system.py:238`): Python's sort is stable, and with
`reverse=True` it is a stable sort by descending key, modelled by
`List.mergeSort` with this total comparator. -/
def simLE (a b : Chunk) : Bool := decide (b.similarity ≤ a.similarity)

/-- `HusqvarnaRAGSystem._consolidate_similar_chunks`
(`rag_system.py:198-240`). -/
def _consolidate_similar_chunks (chunks : List Chunk) : List Chunk :=
  if chunks.isEmpty then chunks
  else (consolidateLoop (7/10) chunks []).mergeSort simLE

/-- Specification-side duplicate relation, following the spec's words:
the overlap ratio `|intersection of lowercase word sets| /
min(|candidateWords|, |seenWords|)` strictly exceeds the threshold
(a candidate or seen entry with an empty word set never compares
positively). -/
def overlapExceeds (thr : ℚ) (c e : Chunk) : Prop :=
  0 < (chunkWords c).card ∧ 0 < (chunkWords e).card ∧
    thr < (((chunkWords c) ∩ (chunkWords e)).card : ℚ)
          / (min (chunkWords c).card (chunkWords e).card : ℚ)

instance (thr : ℚ) (c e : Chunk) : Decidable (overlapExceeds thr c e) := by
  unfold overlapExceeds
  exact inferInstance

/-- Specification-side deduplicator: accept a candidate iff no previously
accepted entry has an overlap ratio exceeding the threshold. -/
def dedupeSpec (thr : ℚ) : List Chunk → List Chunk → List Chunk
  | _, [] => []
  | acc, c :: cs =>
    if ∀ e ∈ acc, ¬ overlapExceeds thr c e then
      c :: dedupeSpec thr (acc ++ [c]) cs
    else
      dedupeSpec thr acc cs

/-- Round-half-to-even on rationals, modelling Python's `round` (banker's
rounding; float representation effects are outside the rational model). -/
def roundHalfEven (q : ℚ) : ℤ :=
  let f := ⌊q⌋
  let r := q - f
  if r < 1/2 then f
  else if 1/2 < r then f + 1
  else if 2 ∣ f then f else f + 1

/-- Python `round(x, 3)`. -/
def pyRound3 (q : ℚ) : ℚ := (roundHalfEven (q * 1000) : ℚ) / 1000

/-- The chunk dictionary built for an accepted row
(`rag_system.py:132-140`): stripped content, similarity and distance
rounded to 3 decimals. -/
def mkSearchChunk (r : Row) : Chunk :=
  { chunk_id := r.chunk_id
    content := pyStrip r.content
    source := r.source
    page_number := r.page_number
    safety_level := r.safety_level
    similarity := pyRound3 r.similarity
    distance := pyRound3 r.distance }

/-- The filter/dedupe/cap loop of `search_similar_chunks`
(`rag_system.py:109-145`): keep rows at or above the similarity threshold,
reject near-duplicates at threshold `0.65`, stop once `top_k` chunks are
accepted (the length test runs after the append, so the cap triggers after
the `top_k`-th acceptance). -/
def searchLoop (simThr : ℚ) (top_k : Nat) : List Row → List Str → Nat → List Chunk
  | [], _, _ => []
  | r :: rs, seen, n =>
    if simThr ≤ r.similarity then
      if seen.any (fun e => dupB (65/100) (wordSet (pyStrip r.content)) (wordSet e)) then
        searchLoop simThr top_k rs seen n
      else
        if top_k ≤ n + 1 then [mkSearchChunk r]
        else
          mkSearchChunk r :: searchLoop simThr top_k rs (seen ++ [pyStrip r.content]) (n + 1)
    else searchLoop simThr top_k rs seen n

/-- `HusqvarnaRAGSystem.search_similar_chunks` after the BigQuery call
(`rag_system.py:109-147`), taking the returned rows as input. -/
def search_similar_chunks (rows : List Row) (top_k : Nat) (simThr : ℚ) : List Chunk :=
  searchLoop simThr top_k rows [] 0

/-! ## Safety assessor (`safety_enhancement.py`) -/

/-- `SafetyEnhancer.safety_keywords` (`safety_enhancement.py:17-21`). -/
def safety_keywords : List Str :=
  [("danger").data, ("warning").data, ("caution").data, ("risk").data,
   ("hazard").data, ("safety").data, ("critical").data, ("emergency").data,
   ("poison").data, ("toxic").data, ("scalding").data, ("burn").data,
   ("injury").data, ("accident").data, ("death").data]

/-- `SafetyEnhancer.safety_patterns` (`safety_enhancement.py:23-32`),
reduced to the substring each `re.search` call is equivalent to: every
pattern is a literal followed by `[^.]*`, and since `[^.]*` matches the
empty string, `re.search` succeeds exactly when the literal occurs. -/
def safety_pattern_lits : List Str :=
  [("danger of ").data, ("warning").data, ("caution").data, ("risk of ").data,
   ("hazard").data, ("safety").data, ("critical").data, ("emergency").data]

/-- The keyword count of `assess_safety_level`
(`safety_enhancement.py:47-49`): keywords contained in the lowercased
query as substrings. -/
def keywordCount (query : Str) : Nat :=
  safety_keywords.countP (fun k => strContains (lowerStr query) k)

/-- The pattern-match count of `assess_safety_level`
(`safety_enhancement.py:52-54`). -/
def patternCount (query : Str) : Nat :=
  safety_pattern_lits.countP (fun p => strContains (lowerStr query) p)

/-- `SafetyEnhancer.assess_safety_level` (`safety_enhancement.py:34-64`). -/
def assessSafetyLevel (query : Str) : Nat :=
  if 3 ≤ keywordCount query ∨ 2 ≤ patternCount query then 3
  else if 2 ≤ keywordCount query ∨ 1 ≤ patternCount query then 2
  else if 1 ≤ keywordCount query then 1
  else 0

/-! ## Response enhancer (`response_enhancement.py`) -/

/-- `ResponseEnhancer.maintenance_keywords`
(`response_enhancement.py:29-32`). -/
def maintenance_keywords : List Str :=
  [("service").data, ("maintenance").data, ("check").data, ("inspect").data,
   ("replace").data, ("adjust").data, ("clean").data, ("lubricate").data,
   ("tighten").data, ("torque").data, ("interval").data]

/-- `ResponseEnhancer.safety_indicators`
(`response_enhancement.py:34-37`). -/
def safety_indicators : List Str :=
  [("warning").data, ("danger").data, ("caution").data, ("risk").data,
   ("safety").data, ("hazard").data, ("injury").data, ("death").data,
   ("fire").data, ("explosion").data, ("toxic").data, ("hot").data]

/-- `re.search(r"\d+\.", s)`: some digit is immediately followed by a dot
(the last digit of the `\d+` run the regex consumes). -/
def hasDigitDot : Str → Bool
  | c1 :: c2 :: rest => (c1.isDigit && c2 == '.') || hasDigitDot (c2 :: rest)
  | _ => false

/-- `re.search(r"[•\-\*]", s)`: the string contains a bullet character. -/
def hasBullet (s : Str) : Bool :=
  s.any (fun c => c == '•' || c == '-' || c == '*')

/-- `re.search(lit ++ r"\d+", s)`: an occurrence of the literal followed by
a digit. -/
def litThenDigit (lit : Str) (s : Str) : Bool :=
  s.tails.any (fun t =>
    lit.isPrefixOf t &&
      (match t.drop lit.length with
       | d :: _ => d.isDigit
       | [] => false))

/-- The scan for `\s*\n` starting at a position: some run of whitespace
followed by a newline (`\n` itself is whitespace, so the scan stops at the
first newline inside a whitespace run, which witnesses the match). -/
def wsThenNewline : Str → Bool
  | [] => false
  | c :: rest => c == '\n' || (isSpace c && wsThenNewline rest)

/-- `re.search(r":\s*\n", s)`. -/
def hasColonNewline (s : Str) : Bool :=
  s.tails.any (fun t =>
    match t with
    | ':' :: rest => wsThenNewline rest
    | _ => false)

/-- `ResponseEnhancer._has_structured_content`
(`response_enhancement.py:114-124`); all five patterns are searched with
`re.IGNORECASE`, modelled by scanning the lowercased string (only
`step \d+` and `procedure:` contain letters). -/
def _has_structured_content (content : Str) : Bool :=
  let sl := lowerStr content
  hasDigitDot sl || hasBullet sl || litThenDigit ("step ").data sl ||
    strContains sl ("procedure:").data || hasColonNewline sl

/-- The scan for `\s*(u₁|u₂|…)` starting at a position: some run of
whitespace followed by one of the unit literals. -/
def wsThenLit (lits : List Str) : Str → Bool
  | [] => lits.any (fun l => l.isPrefixOf ([] : Str))
  | c :: rest =>
    lits.any (fun l => l.isPrefixOf (c :: rest)) || (isSpace c && wsThenLit lits rest)

/-- `re.search(r"\d+\s*(u₁|u₂|…)", s)`: some digit (the last of the `\d+`
run) followed by optional whitespace and a unit literal. -/
def digitThenUnit (lits : List Str) (s : Str) : Bool :=
  s.tails.any (fun t =>
    match t with
    | c :: rest => c.isDigit && wsThenLit lits rest
    | [] => false)

/-- The eight unit-alternation groups of `ResponseEnhancer._has_technical_data`
(`response_enhancement.py:128-137`). -/
def unitGroups : List (List Str) :=
  [[("mm").data, ("cm").data, ("m").data, ("in").data, ("ft").data],
   [("rpm").data, ("mph").data, ("km/h").data],
   [("bar").data, ("psi").data, ("pa").data],
   [("°c").data, ("°f").data, ("celsius").data, ("fahrenheit").data],
   [("nm").data, ("ft-lb").data],
   [("ml").data, ("l").data, ("oz").data, ("qt").data],
   [("kg").data, ("lb").data, ("g").data],
   [("v").data, ("volt").data, ("amp").data]]

/-- `ResponseEnhancer._has_technical_data`
(`response_enhancement.py:126-139`), with `re.IGNORECASE` modelled by
scanning the lowercased string. -/
def _has_technical_data (content : Str) : Bool :=
  unitGroups.any (fun g => digitThenUnit g (lowerStr content))

/-- `ResponseEnhancer._calculate_safety_relevance`
(`response_enhancement.py:141-154`). -/
def _calculate_safety_relevance (content query : Str) : ℚ :=
  if safety_indicators.any (fun i => strContains (lowerStr query) i) then
    (safety_indicators.countP (fun i => strContains (lowerStr content) i) : ℚ)
      * (15/100)
  else 0

/-- The enhanced score assigned to a chunk by
`ResponseEnhancer.rank_chunks_by_relevance`
(`response_enhancement.py:80-109`): base similarity, `+0.1` per distinct
query term occurring as a substring of the lowercased content, `+0.05` per
maintenance keyword present, `+0.08` for structural markers, `+0.06` for
technical measurements, plus the safety-relevance bonus.

Caveat of the rational model: the source accumulates these bonuses in
binary64 floats, where sums of decimal fractions are generally inexact
(e.g. `0.5 + 0.05 + 0.05` evaluates to `0.6000000000000001`, not `0.6`),
so exact-rational addition can equate scores the program distinguishes.
Concrete statements about score ties therefore use only bonus
combinations whose float evaluation coincides with the equality
behaviour of the rational value (such as `0.5 + 0.1 == 0.6`, which holds
exactly in binary64). -/
def enhancedScore (query : Str) (c : Chunk) : ℚ :=
  let content_lower := lowerStr c.content
  let query_terms := (pySplit (lowerStr query)).toFinset
  c.similarity
    + ((query_terms.filter (fun t => strContains content_lower t)).card : ℚ) * (1/10)
    + (maintenance_keywords.countP (fun t => strContains content_lower t) : ℚ) * (5/100)
    + (if _has_structured_content c.content then 8/100 else 0)
    + (if _has_technical_data c.content then 6/100 else 0)
    + _calculate_safety_relevance c.content query

/-- Comparator of `sorted(chunks, key=lambda x: x['enhanced_score'],
reverse=True)` (`response_enhancement.py:112`): stable descending sort. -/
def scoreLE (a b : Chunk × ℚ) : Bool := decide (b.2 ≤ a.2)

/-- `ResponseEnhancer.rank_chunks_by_relevance`
(`response_enhancement.py:66-112`).  The Python code mutates each chunk
dictionary with an `enhanced_score` entry and then sorts; this is modelled
by pairing each chunk with its score. -/
def rank_chunks_by_relevance (chunks : List Chunk) (query : Str) : List (Chunk × ℚ) :=
  (chunks.map (fun c => (c, enhancedScore query c))).mergeSort scoreLE

/-- The completeness sub-score of `ResponseEnhancer.validate_response_quality`
(`response_enhancement.py:179-183`): `addressed_terms / len(query_terms)`
over the set of lowercased whitespace tokens of the query.  The division
raises `ZeroDivisionError` when the token set is empty, modelled as
`none`; the remaining sub-scores of the assessment are computed after this
division and are unreachable in that case. -/
def validate_completeness (response query : Str) : Option ℚ :=
  let query_terms := (pySplit (lowerStr query)).toFinset
  if query_terms.card = 0 then none
  else
    some (((query_terms.filter
              (fun t => strContains (lowerStr response) t)).card : ℚ)
          / (query_terms.card : ℚ))

/-! ## Context assembly and response generation (`rag_system.py`) -/

/-- Python `"{:.1%}".format(q)`: the value as a percentage with one
decimal digit (round-half-to-even at the tenth of a percent). -/
def formatPercent1 (q : ℚ) : Str :=
  let n := roundHalfEven (q * 1000)
  let m := n.natAbs
  (if n < 0 then ("-").data else []) ++ (Nat.repr (m / 10)).data
    ++ (".").data ++ (Nat.repr (m % 10)).data ++ ("%").data

/-- The metadata-tagged block built for the `i`-th chunk (1-based) in
`generate_response` (`rag_system.py:266-275`). -/
def chunkText (i : Nat) (c : Chunk) : Str :=
  ("=== MANUAL SECTION ").data ++ (Nat.repr i).data ++ (" ===\n").data
    ++ ("Source: ").data ++ c.source ++ ("\n").data
    ++ ("Page: ").data ++ (Nat.repr c.page_number).data ++ ("\n").data
    ++ ("Safety Level: ").data ++ (Nat.repr c.safety_level).data ++ ("/3\n").data
    ++ ("Relevance: ").data ++ formatPercent1 c.similarity ++ ("\n").data
    ++ ("Content:\n").data ++ c.content ++ ("\n").data
    ++ ("=== END SECTION ").data ++ (Nat.repr i).data ++ (" ===\n").data

/-- The accumulation loop of `generate_response` (`rag_system.py:262-281`):
include a block while the running total of block lengths stays within
`max_context_length`, stop at the first overflow. -/
def buildContextParts (maxLen : Nat) : Nat → Nat → List Chunk → List Str
  | _, _, [] => []
  | i, cur, c :: cs =>
    let t := chunkText i c
    if cur + t.length ≤ maxLen then
      t :: buildContextParts maxLen (i + 1) (cur + t.length) cs
    else []

/-- `context = "\n".join(context_parts)` (`rag_system.py:283`). -/
def assembleContext (chunks : List Chunk) (maxLen : Nat) : Str :=
  strJoin ("\n").data (buildContextParts maxLen 1 0 chunks)

/-- The no-chunks reply of `generate_response_fallback`
(`rag_system.py:163-164`). -/
def fbNoChunksMsg : Str :=
  ("I couldn\x27t find relevant information in the Husqvarna 701 manuals for your question.").data

/-- The safety banner of `generate_response_fallback`
(`rag_system.py:170-173`). -/
def fbSafetyWarning : Str :=
  ("⚠️ **SAFETY WARNING**: This information involves potentially dangerous procedures. Please exercise extreme caution and consider consulting a professional mechanic.\n\n").data

/-- The intro line of `generate_response_fallback` (`rag_system.py:177`). -/
def fbIntroLine (query : Str) : Str :=
  ("Based on the Husqvarna 701 Enduro manual, here\x27s what I found regarding \x27").data
    ++ query ++ ("\x27:\n").data

/-- The two response parts appended per displayed chunk in
`generate_response_fallback` (`rag_system.py:180-186`). -/
def fbChunkParts (i : Nat) (c : Chunk) : List Str :=
  [("**").data ++ (Nat.repr i).data ++ (". **Source**: ").data ++ c.source
     ++ (" (Page ").data ++ (Nat.repr c.page_number).data ++ (")** (Relevance: ").data
     ++ formatPercent1 c.similarity ++ (")").data,
   pyStrip c.content ++ ("\n").data]

/-- The closing note of `generate_response_fallback`
(`rag_system.py:194`). -/
def fbClosingNote : Str :=
  ("\n**Note**: This response is based on content extracted from the official Husqvarna 701 Enduro manuals. For complex procedures, always refer to the complete manual or consult a qualified technician.").data

/-- `HusqvarnaRAGSystem.generate_response_fallback`
(`rag_system.py:149-196`). -/
def generate_response_fallback (query : Str) (context_chunks : List Chunk) : Str :=
  if context_chunks.isEmpty then fbNoChunksMsg
  else
    let consolidated := _consolidate_similar_chunks context_chunks
    let safety_warning :=
      if consolidated.any (fun c => 3 ≤ c.safety_level) then fbSafetyWarning else []
    let shown := ((consolidated.take 3).enumFrom 1).flatMap (fun p => fbChunkParts p.1 p.2)
    let extra : List Str :=
      if 3 < consolidated.length then
        [("*Found ").data ++ (Nat.repr (consolidated.length - 3)).data
           ++ (" additional relevant sections...*").data]
      else if consolidated.length < context_chunks.length then
        [("*Consolidated ").data
           ++ (Nat.repr (context_chunks.length - consolidated.length)).data
           ++ (" similar sections for clarity...*").data]
      else []
    safety_warning
      ++ strJoin ("\n").data ([fbIntroLine query] ++ shown ++ extra ++ [fbClosingNote])

/-- The critical-safety banner of `generate_response`
(`rag_system.py:286-295`). -/
def gemSafetyWarning : Str :=
  ("🚨 **CRITICAL SAFETY WARNING** 🚨\nThis response contains information about potentially dangerous procedures that could result in serious injury or death. Only qualified technicians should perform these operations. Always follow safety protocols and manufacturer guidelines.\n\n").data

/-- The instruction prompt of `generate_response` (`rag_system.py:298-323`),
with the assembled context and the user question interpolated. -/
def buildPrompt (query context : Str) : Str :=
  ("You are an expert Husqvarna 701 Enduro motorcycle technician with extensive knowledge of maintenance, repair, and troubleshooting. Your role is to provide accurate, helpful, and safety-conscious guidance based on the official manual excerpts provided.\n\n=== CONTEXT FROM HUSQVARNA 701 ENDURO MANUALS ===\n").data
    ++ context
    ++ ("\n=== END CONTEXT ===\n\nUSER QUESTION: ").data
    ++ query
    ++ ("\n\n=== RESPONSE INSTRUCTIONS ===\n1. ACCURACY: Base your answer ONLY on the provided manual excerpts\n2. STRUCTURE: Organize your response with clear headings and bullet points\n3. SAFETY: Always prioritize safety - emphasize warnings and precautions\n4. SPECIFICITY: Include exact specifications, torque values, part numbers when available\n5. PRACTICALITY: Provide step-by-step instructions when applicable\n6. SOURCES: Reference specific manual sections and page numbers\n7. LIMITATIONS: If information is incomplete, clearly state what\x27s missing\n8. TOOLS: Mention required tools and equipment when relevant\n\n=== RESPONSE FORMAT ===\n- Start with a brief summary\n- Provide detailed information organized by subtopics\n- Include safety warnings prominently\n- End with references to manual sections\n- Use technical terminology appropriately\n\nGenerate a comprehensive, professional response:").data

/-- Outcome of one call to the opaque text-generation model
(`self.text_model.generate_content`): either the generated text or a
raised exception's message. -/
inductive GenOutcome where
  | ok (text : Str)
  | fail (msg : Str)
deriving DecidableEq

/-- `HusqvarnaRAGSystem.generate_response` (`rag_system.py:242-339`).
`useFallback` is `self.use_fallback` (set once at construction when the
startup probe of the Gemini model fails); `gen` maps the built prompt to
the model call's outcome.  A raised exception propagates to the caller,
modelled by `Except.error`. -/
def generate_response (useFallback : Bool) (gen : Str → GenOutcome)
    (query : Str) (context_chunks : List Chunk)
    (max_context_length : Nat := 4000) : Except Str Str :=
  if useFallback then .ok (generate_response_fallback query context_chunks)
  else
    let context := assembleContext context_chunks max_context_length
    let safety_warning :=
      if context_chunks.any (fun c => 3 ≤ c.safety_level) then gemSafetyWarning else []
    match gen (buildPrompt query context) with
    | .ok text => .ok (safety_warning ++ text)
    | .fail msg => .error msg

/-- A source summary of the query result (`rag_system.py:384-391`). -/
structure SourceEntry where
  source : Str
  page : Nat
  similarity : ℚ
  safety_level : Nat
deriving DecidableEq

/-- The dictionary returned by `HusqvarnaRAGSystem.query`
(`rag_system.py:365-412`); the success paths carry no `error` key,
modelled as `none`. -/
structure QueryOutput where
  query : Str
  response : Str
  sources : List SourceEntry
  chunks_found : Nat
  success : Bool
  error : Option Str
  fallback_mode : Bool
deriving DecidableEq

/-- The no-candidates reply of `query` (`rag_system.py:368-373`). -/
def noRelevantInfoMsg : Str :=
  ("I couldn\x27t find relevant information in the Husqvarna 701 manuals for your question. Please try rephrasing your query or ask about specific maintenance, repair, or operational topics.").data

/-- `HusqvarnaRAGSystem.query` (`rag_system.py:341-412`).  `retrieval` is
the outcome of `search_similar_chunks` (its BigQuery/embedding calls may
raise); the surrounding `try/except` turns any raised exception into a
`success=False` dictionary (`rag_system.py:402-412`). -/
def ragQuery (useFallback : Bool) (gen : Str → GenOutcome)
    (retrieval : Except Str (List Chunk)) (user_query : Str) : QueryOutput :=
  match retrieval with
  | .error e =>
    { query := user_query
      response := ("An error occurred while processing your query: ").data ++ e
      sources := []
      chunks_found := 0
      success := false
      error := some e
      fallback_mode := useFallback }
  | .ok similar_chunks =>
    if similar_chunks.isEmpty then
      { query := user_query
        response := noRelevantInfoMsg
        sources := []
        chunks_found := 0
        success := true
        error := none
        fallback_mode := useFallback }
    else
      match generate_response useFallback gen user_query similar_chunks with
      | .ok response =>
        { query := user_query
          response := response
          sources := similar_chunks.map (fun c =>
            { source := c.source, page := c.page_number,
              similarity := c.similarity, safety_level := c.safety_level })
          chunks_found := similar_chunks.length
          success := true
          error := none
          fallback_mode := useFallback }
      | .error e =>
        { query := user_query
          response := ("An error occurred while processing your query: ").data ++ e
          sources := []
          chunks_found := 0
          success := false
          error := some e
          fallback_mode := useFallback }

/-- Modelled from the spec: `HusqvarnaRAGSystem._calculate_confidence` and
the `QueryResult.confidence` field are referenced by the repository's unit
tests (`tests/unit/test_core/test_rag_system.py:144-155`) and by the API
and CLI callers, but the version of `core/rag_system.py` defining them is
not present under `src/`.  Spec: "`confidence`: float, arithmetic mean of
candidate similarities (0.0 if no candidates)". -/
def _calculate_confidence (chunks : List Chunk) : ℚ :=
  if chunks.isEmpty then 0
  else (chunks.map (fun c => c.similarity)).sum / (chunks.length : ℚ)

/-! ## Lemmas about the dedupe loops -/

theorem dupB_eq_overlapExceeds (thr : ℚ) (c e : Chunk) :
    (dupB thr (chunkWords c) (chunkWords e) = true) ↔ overlapExceeds thr c e := by
  simp [dupB, overlapExceeds, and_assoc]

theorem overlapExceeds_symm {thr : ℚ} {a b : Chunk}
    (h : overlapExceeds thr a b) : overlapExceeds thr b a := by
  obtain ⟨h1, h2, h3⟩ := h
  refine ⟨h2, h1, ?_⟩
  rwa [Finset.inter_comm, min_comm]

theorem consolidateLoop_eq_dedupeSpec (thr : ℚ) :
    ∀ (cs acc : List Chunk),
      consolidateLoop thr cs (acc.map (fun e => pyStrip e.content))
        = dedupeSpec thr acc cs
  | [], _ => rfl
  | c :: cs, acc => by
    have hcond :
        ((acc.map (fun e => pyStrip e.content)).any
            (fun e => dupB thr (wordSet (pyStrip c.content)) (wordSet e)) = true)
          ↔ ∃ e ∈ acc, overlapExceeds thr c e := by
      rw [List.any_eq_true]
      constructor
      · rintro ⟨x, hx, hd⟩
        obtain ⟨e, he, rfl⟩ := List.mem_map.mp hx
        exact ⟨e, he, (dupB_eq_overlapExceeds thr c e).mp hd⟩
      · rintro ⟨e, he, hd⟩
        exact ⟨pyStrip e.content, List.mem_map_of_mem _ he,
          (dupB_eq_overlapExceeds thr c e).mpr hd⟩
    by_cases h : ∀ e ∈ acc, ¬ overlapExceeds thr c e
    · have hfalse :
          ¬ ((acc.map (fun e => pyStrip e.content)).any
              (fun e => dupB thr (wordSet (pyStrip c.content)) (wordSet e)) = true) := by
        rw [hcond]
        push_neg
        exact h
      rw [consolidateLoop, if_neg hfalse, dedupeSpec, if_pos h]
      have := consolidateLoop_eq_dedupeSpec thr cs (acc ++ [c])
      simp only [List.map_append, List.map_cons, List.map_nil] at this
      rw [this]
    · have htrue :
          ((acc.map (fun e => pyStrip e.content)).any
              (fun e => dupB thr (wordSet (pyStrip c.content)) (wordSet e))) = true := by
        rw [hcond]
        push_neg at h
        exact h
      rw [consolidateLoop, if_pos htrue, dedupeSpec, if_neg h]
      exact consolidateLoop_eq_dedupeSpec thr cs acc

theorem consolidateLoop_sublist (thr : ℚ) :
    ∀ (cs : List Chunk) (used : List Str), (consolidateLoop thr cs used).Sublist cs
  | [], _ => List.nil_sublist _
  | c :: cs, used => by
    rw [consolidateLoop]
    split
    · exact (consolidateLoop_sublist thr cs used).cons c
    · exact (consolidateLoop_sublist thr cs _).cons₂ c

theorem dedupeSpec_pairwise (thr : ℚ) :
    ∀ (cs acc : List Chunk),
      (dedupeSpec thr acc cs).Pairwise (fun a b => ¬ overlapExceeds thr b a)
      ∧ ∀ x ∈ dedupeSpec thr acc cs, ∀ e ∈ acc, ¬ overlapExceeds thr x e
  | [], acc => by simp [dedupeSpec]
  | c :: cs, acc => by
    by_cases h : ∀ e ∈ acc, ¬ overlapExceeds thr c e
    · rw [dedupeSpec, if_pos h]
      obtain ⟨hp, hacc⟩ := dedupeSpec_pairwise thr cs (acc ++ [c])
      constructor
      · refine List.pairwise_cons.mpr ⟨?_, hp⟩
        intro b hb
        exact hacc b hb c (by simp)
      · intro x hx e he
        rcases List.mem_cons.mp hx with rfl | hx
        · exact h e he
        · exact hacc x hx e (by simp [he])
    · rw [dedupeSpec, if_neg h]
      obtain ⟨hp, hacc⟩ := dedupeSpec_pairwise thr cs acc
      exact ⟨hp, hacc⟩

theorem dedupeSpec_of_pairwise (thr : ℚ) :
    ∀ (cs acc : List Chunk),
      (∀ c ∈ cs, ∀ e ∈ acc, ¬ overlapExceeds thr c e) →
      cs.Pairwise (fun a b => ¬ overlapExceeds thr b a) →
      dedupeSpec thr acc cs = cs
  | [], _, _, _ => rfl
  | c :: cs, acc, hacc, hp => by
    rw [dedupeSpec, if_pos (hacc c (by simp))]
    congr 1
    refine dedupeSpec_of_pairwise thr cs (acc ++ [c]) ?_ (List.pairwise_cons.mp hp).2
    intro c' hc' e he
    rcases List.mem_append.mp he with he | he
    · exact hacc c' (by simp [hc']) e he
    · rw [List.mem_singleton.mp he]
      exact (List.pairwise_cons.mp hp).1 c' hc'

theorem simLE_trans : ∀ (a b c : Chunk), simLE a b → simLE b c → simLE a c := by
  intro a b c hab hbc
  simp only [simLE, decide_eq_true_eq] at *
  exact le_trans hbc hab

theorem simLE_total : ∀ (a b : Chunk), simLE a b || simLE b a := by
  intro a b
  simp only [simLE, Bool.or_eq_true, decide_eq_true_eq]
  exact le_total b.similarity a.similarity

theorem pyStrip_mkSearchChunk (r : Row) :
    pyStrip (mkSearchChunk r).content = (mkSearchChunk r).content :=
  pyStrip_idem r.content

theorem searchDup_iff {r : Row} {acc : List Chunk}
    (hc : ∀ e ∈ acc, pyStrip e.content = e.content) :
    ((acc.map (fun e => e.content)).any
        (fun e => dupB (65/100) (wordSet (pyStrip r.content)) (wordSet e)) = true)
      ↔ ∃ e ∈ acc, overlapExceeds (65/100) (mkSearchChunk r) e := by
  have hw : ∀ e ∈ acc,
      (dupB (65/100) (wordSet (pyStrip r.content)) (wordSet e.content) = true)
        ↔ overlapExceeds (65/100) (mkSearchChunk r) e := by
    intro e he
    have h1 : wordSet (pyStrip r.content) = chunkWords (mkSearchChunk r) := by
      simp [chunkWords, mkSearchChunk, pyStrip_idem]
    have h2 : wordSet e.content = chunkWords e := by
      simp [chunkWords, hc e he]
    rw [h1, h2]
    exact dupB_eq_overlapExceeds _ _ _
  rw [List.any_eq_true]
  constructor
  · rintro ⟨x, hx, hd⟩
    obtain ⟨e, he, rfl⟩ := List.mem_map.mp hx
    exact ⟨e, he, (hw e he).mp hd⟩
  · rintro ⟨e, he, hd⟩
    exact ⟨e.content, List.mem_map_of_mem _ he, (hw e he).mpr hd⟩

theorem searchLoop_eq_dedupeSpec (simThr : ℚ) (k : Nat) :
    ∀ (rows : List Row) (acc : List Chunk),
      (∀ e ∈ acc, pyStrip e.content = e.content) →
      acc.length < k →
      searchLoop simThr k rows (acc.map (fun e => e.content)) acc.length
        = (dedupeSpec (65/100) acc
            ((rows.filter (fun r => decide (simThr ≤ r.similarity))).map mkSearchChunk)).take
            (k - acc.length)
  | [], acc, _, _ => by simp [searchLoop, dedupeSpec]
  | r :: rs, acc, hc, hk => by
    by_cases hsim : simThr ≤ r.similarity
    · rw [searchLoop, if_pos hsim, List.filter_cons_of_pos (by simpa using hsim),
        List.map_cons]
      by_cases hdup : ∃ e ∈ acc, overlapExceeds (65/100) (mkSearchChunk r) e
      · have hnotall : ¬ ∀ e ∈ acc, ¬ overlapExceeds (65/100) (mkSearchChunk r) e := by
          push_neg
          exact hdup
        rw [if_pos ((searchDup_iff hc).mpr hdup), dedupeSpec, if_neg hnotall]
        exact searchLoop_eq_dedupeSpec simThr k rs acc hc hk
      · push_neg at hdup
        have hnd : ¬ ((acc.map (fun e => e.content)).any
            (fun e => dupB (65/100) (wordSet (pyStrip r.content)) (wordSet e)) = true) := by
          rw [searchDup_iff hc]
          push_neg
          exact hdup
        rw [if_neg hnd, dedupeSpec, if_pos hdup]
        by_cases hk2 : k ≤ acc.length + 1
        · have hkeq : k - acc.length = 1 := by omega
          rw [if_pos hk2, hkeq, List.take_succ_cons, List.take_zero]
        · have hkeq : k - acc.length = (k - (acc.length + 1)) + 1 := by omega
          rw [if_neg hk2, hkeq, List.take_succ_cons]
          have hmap : acc.map (fun e => e.content) ++ [pyStrip r.content]
              = (acc ++ [mkSearchChunk r]).map (fun e => e.content) := by
            simp [mkSearchChunk]
          have hlen : acc.length + 1 = (acc ++ [mkSearchChunk r]).length := by simp
          have hc' : ∀ e ∈ acc ++ [mkSearchChunk r], pyStrip e.content = e.content := by
            intro e he
            rcases List.mem_append.mp he with he | he
            · exact hc e he
            · rw [List.mem_singleton.mp he]
              exact pyStrip_mkSearchChunk r
          rw [hmap, hlen]
          rw [searchLoop_eq_dedupeSpec simThr k rs (acc ++ [mkSearchChunk r]) hc'
            (by simpa using hk2)]
    · rw [searchLoop, if_neg hsim, List.filter_cons_of_neg (by simpa using hsim)]
      exact searchLoop_eq_dedupeSpec simThr k rs acc hc hk

theorem searchLoop_sublist (simThr : ℚ) (k : Nat) :
    ∀ (rows : List Row) (seen : List Str) (n : Nat),
      (searchLoop simThr k rows seen n).Sublist (rows.map mkSearchChunk)
  | [], _, _ => by simp [searchLoop]
  | r :: rs, seen, n => by
    rw [searchLoop, List.map_cons]
    split
    · split
      · exact (searchLoop_sublist simThr k rs seen n).cons _
      · split
        · exact List.cons_sublist_cons.mpr (List.nil_sublist _)
        · exact (searchLoop_sublist simThr k rs _ _).cons₂ _
    · exact (searchLoop_sublist simThr k rs seen n).cons _

/-! ## Claim theorems -/

theorem patternCount_eq_zero {q : Str} (h : keywordCount q = 0) :
    patternCount q = 0 := by
  have hpref : ∀ p ∈ safety_pattern_lits, ∃ k ∈ safety_keywords, k <+: p := by decide
  unfold keywordCount at h
  unfold patternCount
  rw [List.countP_eq_zero] at h ⊢
  intro p hp
  simp only [Bool.not_eq_true] at h ⊢
  by_contra hcontra
  rw [Bool.not_eq_false] at hcontra
  obtain ⟨k, hk, hkp⟩ := hpref p hp
  have := strContains_mono hcontra hkp
  rw [h k hk] at this
  exact Bool.false_ne_true this

/-- Claim C1: `assess_safety_level` classifies every query by the strict
priority cascade over keyword and pattern counts on the lowercased query
(3 if `keywordCount ≥ 3` or `patternCount ≥ 2`, else 2 if
`keywordCount ≥ 2` or `patternCount ≥ 1`, else 1 if `keywordCount ≥ 1`,
else 0); in particular exactly 3 matched keywords with no pattern matches
yield 3, exactly 1 keyword with no pattern matches yields 1, and no
keywords yield 0. -/
theorem assess_safety_level_cascade (q : Str) :
    assessSafetyLevel q =
      (if 3 ≤ keywordCount q ∨ 2 ≤ patternCount q then 3
       else if 2 ≤ keywordCount q ∨ 1 ≤ patternCount q then 2
       else if 1 ≤ keywordCount q then 1 else 0)
  ∧ (keywordCount q = 3 → patternCount q = 0 → assessSafetyLevel q = 3)
  ∧ (keywordCount q = 1 → patternCount q = 0 → assessSafetyLevel q = 1)
  ∧ (keywordCount q = 0 → assessSafetyLevel q = 0) := by
  refine ⟨rfl, ?_, ?_, ?_⟩
  · intro h1 h2
    simp [assessSafetyLevel, h1, h2]
  · intro h1 h2
    simp [assessSafetyLevel, h1, h2]
  · intro h0
    have hp := patternCount_eq_zero h0
    simp [assessSafetyLevel, h0, hp]

theorem assess_safety_level_cascade_witness :
    assessSafetyLevel ("burn injury death").data = 3
  ∧ assessSafetyLevel ("burn").data = 1
  ∧ assessSafetyLevel ("hello").data = 0 :=
  ⟨(assess_safety_level_cascade (("burn injury death").data)).2.1 (by decide) (by decide),
   (assess_safety_level_cascade (("burn").data)).2.2.1 (by decide) (by decide),
   (assess_safety_level_cascade (("hello").data)).2.2.2 (by decide)⟩

/-- Claim C4: both dedupe passes accept a candidate iff no previously
accepted entry has overlap ratio `|intersection| / min(|candidate|,|seen|)`
strictly above the threshold — `0.65` for raw search results
(`search_similar_chunks`, including its `top_k` cap), `0.70` for
consolidation (`_consolidate_similar_chunks`'s accept/reject pass) — and a
candidate with an empty word set is always kept. -/
theorem dedupe_acceptance_criterion
    (chunks rest acc : List Chunk) (c : Chunk) (thr : ℚ)
    (rows : List Row) (k : Nat) (simThr : ℚ) (hk : 0 < k) :
    consolidateLoop (7/10) chunks [] = dedupeSpec (7/10) [] chunks
  ∧ search_similar_chunks rows k simThr
      = (dedupeSpec (65/100)
          [] ((rows.filter (fun r => decide (simThr ≤ r.similarity))).map mkSearchChunk)).take k
  ∧ ((chunkWords c).card = 0 →
      dedupeSpec thr acc (c :: rest) = c :: dedupeSpec thr (acc ++ [c]) rest) := by
  refine ⟨?_, ?_, ?_⟩
  · simpa using consolidateLoop_eq_dedupeSpec (7/10) chunks []
  · have h := searchLoop_eq_dedupeSpec simThr k rows [] (by simp) (by simpa using hk)
    simpa [search_similar_chunks] using h
  · intro hempty
    have hcond : ∀ e ∈ acc, ¬ overlapExceeds thr c e := by
      intro e _ hov
      obtain ⟨h1, -, -⟩ := hov
      rw [hempty] at h1
      exact absurd h1 (lt_irrefl 0)
    rw [dedupeSpec, if_pos hcond]

/-- A minimal chunk used by concrete witnesses and counterexamples. -/
def exChunk : Chunk where
  chunk_id := ("x").data
  content := ("a").data
  source := ("s").data
  page_number := 1
  safety_level := 1
  similarity := 1/2
  distance := 1/2

/-- A minimal retrieval row used by concrete witnesses. -/
def exRow : Row where
  chunk_id := ("x").data
  content := ("oil level check daily").data
  source := ("s").data
  page_number := 1
  safety_level := 1
  distance := 1/10
  similarity := 9/10

theorem dedupe_acceptance_criterion_witness :
    consolidateLoop (7/10) [exChunk] [] = dedupeSpec (7/10) [] [exChunk]
  ∧ search_similar_chunks [exRow] 1 (7/10)
      = (dedupeSpec (65/100)
          [] (([exRow].filter (fun r => decide ((7/10) ≤ r.similarity))).map mkSearchChunk)).take 1
  ∧ ((chunkWords { exChunk with content := (" ").data }).card = 0 →
      dedupeSpec (7/10) [] ({ exChunk with content := (" ").data } :: [exChunk])
        = { exChunk with content := (" ").data }
            :: dedupeSpec (7/10) ([] ++ [{ exChunk with content := (" ").data }]) [exChunk]) :=
  ⟨(dedupe_acceptance_criterion [exChunk] [] [] exChunk (7/10) [exRow] 1 (7/10)
      (by decide)).1,
   (dedupe_acceptance_criterion [exChunk] [] [] exChunk (7/10) [exRow] 1 (7/10)
      (by decide)).2.1,
   fun h => (dedupe_acceptance_criterion [exChunk] [exChunk] []
      { exChunk with content := (" ").data } (7/10) [exRow] 1 (7/10) (by decide)).2.2 h⟩

/-- Claim C8: deduplication (`_consolidate_similar_chunks`) is idempotent:
`dedupe(dedupe(X)) = dedupe(X)` for every candidate list `X`. -/
theorem dedupe_idempotent (X : List Chunk) :
    _consolidate_similar_chunks (_consolidate_similar_chunks X)
      = _consolidate_similar_chunks X := by
  by_cases hX : X.isEmpty
  · unfold _consolidate_similar_chunks
    simp [hX]
  · have hXdef : _consolidate_similar_chunks X
        = (consolidateLoop (7/10) X []).mergeSort simLE := by
      unfold _consolidate_similar_chunks
      rw [if_neg hX]
    rw [hXdef]
    by_cases hYe : ((consolidateLoop (7/10) X []).mergeSort simLE).isEmpty
    · unfold _consolidate_similar_chunks
      rw [if_pos hYe]
    · have hLspec : consolidateLoop (7/10) X [] = dedupeSpec (7/10) [] X := by
        simpa using consolidateLoop_eq_dedupeSpec (7/10) X []
      have hLp : (consolidateLoop (7/10) X []).Pairwise
          (fun a b => ¬ overlapExceeds (7/10) b a) := by
        rw [hLspec]
        exact (dedupeSpec_pairwise (7/10) X []).1
      have hperm : ((consolidateLoop (7/10) X []).mergeSort simLE).Perm
          (consolidateLoop (7/10) X []) :=
        List.mergeSort_perm (consolidateLoop (7/10) X []) simLE
      have hYp : ((consolidateLoop (7/10) X []).mergeSort simLE).Pairwise
          (fun a b => ¬ overlapExceeds (7/10) b a) :=
        (hperm.pairwise_iff (fun h hov => h (overlapExceeds_symm hov))).mpr hLp
      have hYsorted :=
        List.sorted_mergeSort simLE_trans simLE_total (consolidateLoop (7/10) X [])
      have hYspec : dedupeSpec (7/10) [] ((consolidateLoop (7/10) X []).mergeSort simLE)
          = (consolidateLoop (7/10) X []).mergeSort simLE :=
        dedupeSpec_of_pairwise (7/10) _ [] (by intro c' _ e he; simp at he) hYp
      have hYloop : consolidateLoop (7/10) ((consolidateLoop (7/10) X []).mergeSort simLE) []
          = dedupeSpec (7/10) [] ((consolidateLoop (7/10) X []).mergeSort simLE) := by
        simpa using consolidateLoop_eq_dedupeSpec (7/10)
          ((consolidateLoop (7/10) X []).mergeSort simLE) []
      unfold _consolidate_similar_chunks
      rw [if_neg hYe, hYloop, hYspec]
      exact List.mergeSort_of_sorted hYsorted

/-- Example chunk with distinct content and low similarity. -/
def cAlpha : Chunk := { exChunk with content := ("alpha").data, similarity := 1/2 }

/-- Example chunk with distinct content and high similarity. -/
def cBravo : Chunk := { exChunk with content := ("bravo").data, similarity := 9/10 }

/-- Counterexample to claim C5 as stated: `_consolidate_similar_chunks`
re-sorts the survivors by descending similarity, so for an input that is
not already similarity-sorted the survivors do not keep their input
order: with two non-duplicate chunks of similarities `0.5` and `0.9`, in
that order, the output is not a sublist of the input. -/
theorem dedupe_order_counterexample :
    ¬ (_consolidate_similar_chunks [cAlpha, cBravo]).Sublist [cAlpha, cBravo] := by
  with_unfolding_all decide

/-- Claim C5 (amended): dedupe never increases length; the raw-search
dedupe is always order-preserving among survivors (a sublist of the
per-row chunks in retrieval order); the consolidation dedupe re-sorts
survivors by descending similarity, so it is order-preserving whenever
the input is already sorted by non-increasing similarity (as the ranked
lists it receives are). -/
theorem dedupe_order_and_length
    (X : List Chunk) (rows : List Row) (k : Nat) (simThr : ℚ) :
    (_consolidate_similar_chunks X).length ≤ X.length
  ∧ (X.Pairwise (fun a b => b.similarity ≤ a.similarity) →
      (_consolidate_similar_chunks X).Sublist X)
  ∧ (search_similar_chunks rows k simThr).Sublist (rows.map mkSearchChunk) := by
  refine ⟨?_, ?_, ?_⟩
  · unfold _consolidate_similar_chunks
    by_cases hX : X.isEmpty
    · simp [hX]
    · rw [if_neg hX, List.length_mergeSort]
      exact (consolidateLoop_sublist (7/10) X []).length_le
  · intro hsorted
    unfold _consolidate_similar_chunks
    by_cases hX : X.isEmpty
    · simp [hX]
    · rw [if_neg hX]
      have hsub := consolidateLoop_sublist (7/10) X []
      have hpair : (consolidateLoop (7/10) X []).Pairwise
          (fun a b => b.similarity ≤ a.similarity) := hsorted.sublist hsub
      have hs : (consolidateLoop (7/10) X []).Pairwise (fun a b => simLE a b = true) :=
        hpair.imp (fun h => decide_eq_true h)
      rw [List.mergeSort_of_sorted hs]
      exact hsub
  · exact searchLoop_sublist simThr k rows [] 0

theorem dedupe_order_and_length_witness :
    (_consolidate_similar_chunks [cBravo, cAlpha]).length
        ≤ ([cBravo, cAlpha] : List Chunk).length
  ∧ (_consolidate_similar_chunks [cBravo, cAlpha]).Sublist [cBravo, cAlpha]
  ∧ (search_similar_chunks [exRow] 1 (7/10)).Sublist ([exRow].map mkSearchChunk) :=
  ⟨(dedupe_order_and_length [cBravo, cAlpha] [exRow] 1 (7/10)).1,
   (dedupe_order_and_length [cBravo, cAlpha] [exRow] 1 (7/10)).2.1
     (by with_unfolding_all decide),
   (dedupe_order_and_length [cBravo, cAlpha] [exRow] 1 (7/10)).2.2⟩

theorem scoreLE_trans : ∀ (a b c : Chunk × ℚ), scoreLE a b → scoreLE b c → scoreLE a c := by
  intro a b c hab hbc
  simp only [scoreLE, decide_eq_true_eq] at *
  exact le_trans hbc hab

theorem scoreLE_total : ∀ (a b : Chunk × ℚ), scoreLE a b || scoreLE b a := by
  intro a b
  simp only [scoreLE, Bool.or_eq_true, decide_eq_true_eq]
  exact le_total b.2 a.2

theorem rank_stable_filter (chunks : List Chunk) (query : Str) (s : ℚ) :
    (rank_chunks_by_relevance chunks query).filter (fun x => decide (x.2 = s))
      = (chunks.map (fun c => (c, enhancedScore query c))).filter
          (fun x => decide (x.2 = s)) := by
  have hcpair : ((chunks.map (fun c => (c, enhancedScore query c))).filter
      (fun x => decide (x.2 = s))).Pairwise (fun a b => scoreLE a b = true) := by
    refine List.pairwise_of_forall_mem_list ?_
    intro a ha b hb
    have ha2 : a.2 = s := by simpa using (List.mem_filter.mp ha).2
    have hb2 : b.2 = s := by simpa using (List.mem_filter.mp hb).2
    simp [scoreLE, ha2, hb2]
  have hsubl := List.sublist_mergeSort scoreLE_trans scoreLE_total hcpair
    (List.filter_sublist (chunks.map (fun c => (c, enhancedScore query c))))
  have hff : ((chunks.map (fun c => (c, enhancedScore query c))).filter
        (fun x => decide (x.2 = s))).filter (fun x => decide (x.2 = s))
      = (chunks.map (fun c => (c, enhancedScore query c))).filter
          (fun x => decide (x.2 = s)) := by
    rw [List.filter_filter]
    congr 1
    funext a
    exact Bool.and_self _
  have hsubf := hsubl.filter (fun x => decide (x.2 = s))
  rw [hff] at hsubf
  have hperm := (List.mergeSort_perm (chunks.map (fun c => (c, enhancedScore query c)))
    scoreLE).filter (fun x => decide (x.2 = s))
  exact ((hsubf.eq_of_length hperm.length_eq.symm).symm).trans rfl

/-- Example chunk whose single exact query-term match (for the query
`"qq"`) raises its enhanced score to `0.6` from similarity `0.5`.  The
tie this produces with `cPlain` is genuine in the program's float
arithmetic as well: `0.6` parses to the binary64 value nearest `0.6`, and
the float sum `0.5 + 0.1` rounds to that same binary64 value (`0.1`'s
representation error is about `5.6e-18` and the sum `0.5 + 0.1` lies
within half an ulp of the double nearest `0.6`), so in Python
`0.5 + 0.1 == 0.6` holds and both chunks receive equal float scores,
just as both receive the exact score `3/5` here. -/
def cTermMatch : Chunk :=
  { exChunk with content := ("qq").data, similarity := 1/2 }

/-- Example chunk with no bonuses and similarity (hence enhanced score)
`0.6`. -/
def cPlain : Chunk := { exChunk with content := ("zz").data, similarity := 3/5 }

/-- The tie-break order asserted by claim C6: descending enhanced score,
ties by original similarity descending. -/
def claimedTieOrder (x y : Chunk × ℚ) : Prop :=
  y.2 < x.2 ∨ (x.2 = y.2 ∧ y.1.similarity ≤ x.1.similarity)

instance (x y : Chunk × ℚ) : Decidable (claimedTieOrder x y) := by
  unfold claimedTieOrder
  exact inferInstance

/-- Counterexample to claim C6 as stated: the ranker's sort is a stable
sort on enhanced score only.  For the query `"qq"`, a first chunk of
similarity `0.5` whose content matches the one query term (enhanced score
`0.5 + 0.1 = 0.6`) ties a second chunk of similarity `0.6` with no
bonuses — a tie the program's float arithmetic also produces, since
`0.5 + 0.1 == 0.6` holds exactly in binary64 (see `cTermMatch`).  The
output keeps the input order, violating the claimed
similarity-descending tie-break. -/
theorem rank_tie_counterexample :
    ¬ (rank_chunks_by_relevance [cTermMatch, cPlain] ("qq").data).Pairwise
        claimedTieOrder := by
  with_unfolding_all decide

/-- Claim C6 (amended): the relevance ranker returns the scored candidates
sorted in descending order of `enhanced_score`; the sort is stable with
respect to the original retrieval order (candidates with equal enhanced
scores keep their input order); original similarity plays no role in
tie-breaking. -/
theorem rank_sorted_descending_stable (chunks : List Chunk) (query : Str) :
    (rank_chunks_by_relevance chunks query).Pairwise (fun x y => y.2 ≤ x.2)
  ∧ (rank_chunks_by_relevance chunks query).Perm
      (chunks.map (fun c => (c, enhancedScore query c)))
  ∧ ∀ s : ℚ, (rank_chunks_by_relevance chunks query).filter (fun x => decide (x.2 = s))
      = (chunks.map (fun c => (c, enhancedScore query c))).filter
          (fun x => decide (x.2 = s)) := by
  refine ⟨?_, ?_, ?_⟩
  · exact (List.sorted_mergeSort scoreLE_trans scoreLE_total
      (chunks.map (fun c => (c, enhancedScore query c)))).imp
      (fun h => by simpa [scoreLE] using h)
  · exact List.mergeSort_perm _ scoreLE
  · exact fun s => rank_stable_filter chunks query s

theorem buildContextParts_take (maxLen : Nat) :
    ∀ (chunks : List Chunk) (i cur : Nat),
      ∃ k, buildContextParts maxLen i cur chunks
        = ((chunks.take k).enumFrom i).map (fun p => chunkText p.1 p.2)
  | [], i, cur => ⟨0, by simp [buildContextParts]⟩
  | c :: cs, i, cur => by
    rw [buildContextParts]
    split
    · obtain ⟨k, hk⟩ :=
        buildContextParts_take maxLen cs (i + 1) (cur + (chunkText i c).length)
      exact ⟨k + 1, by simp [List.take_succ_cons, hk]⟩
    · exact ⟨0, by simp⟩

theorem buildContextParts_sum (maxLen : Nat) :
    ∀ (chunks : List Chunk) (i cur : Nat),
      ((buildContextParts maxLen i cur chunks).map List.length).sum + cur ≤ maxLen
      ∨ buildContextParts maxLen i cur chunks = []
  | [], _, _ => Or.inr rfl
  | c :: cs, i, cur => by
    rw [buildContextParts]
    split
    · rename_i hfit
      left
      rcases buildContextParts_sum maxLen cs (i + 1) (cur + (chunkText i c).length) with
        h | h
      · simp only [List.map_cons, List.sum_cons]
        omega
      · simp only [h, List.map_cons, List.map_nil, List.sum_cons, List.sum_nil]
        omega
    · exact Or.inr rfl

/-- Counterexample to claim C3 as stated: the budget loop bounds the sum
of block lengths, but `"\n".join` adds one separator per gap.  With two
111-character blocks and `maxContextChars = 222`, both blocks are
accepted (total 222), and the returned context string has length 223. -/
theorem context_budget_counterexample :
    ¬ ((assembleContext [exChunk, exChunk] 222).length ≤ 222) := by
  with_unfolding_all decide

/-- Claim C3 (amended): the included blocks always form a prefix of the
input in order, no partially-written block is ever included, and the sum
of the included block lengths never exceeds `maxContextChars`; the
returned context string joins the blocks with one newline separator per
gap, so its length is bounded by `maxContextChars` plus the number of
included blocks minus one (and can exceed `maxContextChars` alone). -/
theorem context_budget (chunks : List Chunk) (maxLen : Nat) :
    (∃ k, buildContextParts maxLen 1 0 chunks
        = ((chunks.take k).enumFrom 1).map (fun p => chunkText p.1 p.2))
  ∧ ((buildContextParts maxLen 1 0 chunks).map List.length).sum ≤ maxLen
  ∧ (assembleContext chunks maxLen).length
      ≤ maxLen + ((buildContextParts maxLen 1 0 chunks).length - 1) := by
  have hsum : ((buildContextParts maxLen 1 0 chunks).map List.length).sum ≤ maxLen := by
    rcases buildContextParts_sum maxLen chunks 1 0 with h | h
    · omega
    · simp [h]
  refine ⟨buildContextParts_take maxLen chunks 1 0, hsum, ?_⟩
  have hjoin := strJoin_length (("\n").data) (buildContextParts maxLen 1 0 chunks)
  have hsep : (("\n").data).length = 1 := rfl
  rw [assembleContext, hjoin, hsep]
  omega

/-- Counterexample to claim C2 as stated: with the generation model
available at startup (`use_fallback = False`) and retrieval finding a
candidate, a failing query-time generation call propagates to the
`except` branch and `query` returns `success = False` — it does not
degrade to the fallback composer. -/
theorem generation_failure_counterexample :
    (ragQuery false (fun _ => .fail ("boom").data) (.ok [exChunk]) ("q").data).success
      = false := rfl

/-- Claim C2 (amended): generation unavailability degrades gracefully only
via the startup probe: when the model was detected unavailable at
construction (`use_fallback = True`), every query with retrieved
candidates is answered by the fallback composer and returns
`success = True`; a query-time generation failure in non-fallback mode is
caught by the `except` branch and yields `success = False` with the error
recorded. -/
theorem generation_fallback_mode (chunks : List Chunk) (q m : Str)
    (gen : Str → GenOutcome) (h : chunks ≠ []) :
    (ragQuery true gen (.ok chunks) q).success = true
  ∧ (ragQuery true gen (.ok chunks) q).response = generate_response_fallback q chunks
  ∧ (ragQuery false (fun _ => .fail m) (.ok chunks) q).success = false
  ∧ (ragQuery false (fun _ => .fail m) (.ok chunks) q).error = some m := by
  have hne : chunks.isEmpty = false := by
    cases chunks
    · exact absurd rfl h
    · rfl
  refine ⟨?_, ?_, ?_, ?_⟩ <;> simp [ragQuery, generate_response, hne]

theorem generation_fallback_mode_witness :
    (ragQuery true (fun _ => .ok ("t").data) (.ok [exChunk]) ("q").data).success = true
  ∧ (ragQuery true (fun _ => .ok ("t").data) (.ok [exChunk]) ("q").data).response
      = generate_response_fallback (("q").data) [exChunk]
  ∧ (ragQuery false (fun _ => .fail ("boom").data) (.ok [exChunk]) ("q").data).success
      = false
  ∧ (ragQuery false (fun _ => .fail ("boom").data) (.ok [exChunk]) ("q").data).error
      = some (("boom").data) :=
  generation_fallback_mode [exChunk] (("q").data) (("boom").data)
    (fun _ => .ok ("t").data) (by simp)

theorem searchLoop_all_below (simThr : ℚ) (k : Nat) :
    ∀ (rows : List Row) (seen : List Str) (n : Nat),
      (∀ r ∈ rows, ¬ simThr ≤ r.similarity) →
      searchLoop simThr k rows seen n = []
  | [], _, _, _ => rfl
  | r :: rs, seen, n, h => by
    rw [searchLoop, if_neg (h r (by simp))]
    exact searchLoop_all_below simThr k rs seen n (fun r' hr' => h r' (by simp [hr']))

/-- Claim C9: when no retrieved row reaches the similarity threshold,
`search_similar_chunks` returns no candidates and `query` returns the
polite no-relevant-information message with `success = True`,
`chunks_found = 0` and an empty sources list — never an error result. -/
theorem no_candidates_polite (useFb : Bool) (gen : Str → GenOutcome)
    (rows : List Row) (k : Nat) (simThr : ℚ) (q : Str)
    (h : ∀ r ∈ rows, ¬ simThr ≤ r.similarity) :
    ragQuery useFb gen (.ok (search_similar_chunks rows k simThr)) q
      = { query := q, response := noRelevantInfoMsg, sources := [], chunks_found := 0,
          success := true, error := none, fallback_mode := useFb } := by
  rw [search_similar_chunks, searchLoop_all_below simThr k rows [] 0 h]
  rfl

theorem no_candidates_polite_witness :
    ragQuery true (fun _ => .ok ("t").data)
        (.ok (search_similar_chunks [exRow] 5 (95/100))) (("q").data)
      = { query := ("q").data, response := noRelevantInfoMsg, sources := [],
          chunks_found := 0, success := true, error := none, fallback_mode := true } :=
  no_candidates_polite true (fun _ => .ok ("t").data) [exRow] 5 (95/100) (("q").data)
    (by intro r hr; rw [List.mem_singleton.mp hr]; with_unfolding_all decide)

/-- Claim C10: `validate_response_quality` divides by the number of
distinct whitespace tokens of the lowercased query: when the query has at
least one token the completeness sub-score is defined and lies in
`[0, 1]`; when the whitespace tokenization is empty the division raises
`ZeroDivisionError` (modelled as `none`) instead of returning an
assessment. -/
theorem completeness_score_bounds (response query : Str) :
    (pySplit (lowerStr query) ≠ [] →
      ∃ v, validate_completeness response query = some v ∧ 0 ≤ v ∧ v ≤ 1)
  ∧ (pySplit (lowerStr query) = [] → validate_completeness response query = none) := by
  constructor
  · intro h
    have hne : (pySplit (lowerStr query)).toFinset ≠ ∅ := by
      rw [ne_eq, List.toFinset_eq_empty_iff]
      exact h
    have hcard : 0 < (pySplit (lowerStr query)).toFinset.card :=
      Finset.card_pos.mpr (Finset.nonempty_iff_ne_empty.mpr hne)
    refine ⟨(((pySplit (lowerStr query)).toFinset.filter
          (fun t => strContains (lowerStr response) t)).card : ℚ)
        / ((pySplit (lowerStr query)).toFinset.card : ℚ), ?_, ?_, ?_⟩
    · simp only [validate_completeness]
      rw [if_neg (by omega)]
    · exact div_nonneg (Nat.cast_nonneg _) (Nat.cast_nonneg _)
    · rw [div_le_one (by exact_mod_cast hcard)]
      exact_mod_cast Finset.card_filter_le _ _
  · intro h
    simp only [validate_completeness]
    rw [if_pos (by simp [h])]

theorem completeness_score_bounds_witness :
    (∃ v, validate_completeness (("the oil level").data) (("oil").data)
        = some v ∧ 0 ≤ v ∧ v ≤ 1)
  ∧ validate_completeness (("x").data) ((" ").data) = none :=
  ⟨(completeness_score_bounds (("the oil level").data) (("oil").data)).1 (by decide),
   (completeness_score_bounds (("x").data) ((" ").data)).2 (by decide)⟩

/-- Claim C7 (spec-modelled): the confidence of a successful query result
is the arithmetic mean of the surviving candidates' similarities, `0.0`
with no candidates; candidates with similarities `[0.9, 0.8, 0.7]` yield
confidence `0.8`. -/
theorem confidence_is_mean (chunks : List Chunk) (h : chunks ≠ []) :
    _calculate_confidence chunks
        = (chunks.map (fun c => c.similarity)).sum / (chunks.length : ℚ)
  ∧ _calculate_confidence [] = 0
  ∧ _calculate_confidence
      [{ exChunk with similarity := 9/10 }, { exChunk with similarity := 8/10 },
       { exChunk with similarity := 7/10 }] = 8/10 := by
  refine ⟨?_, rfl, ?_⟩
  · unfold _calculate_confidence
    rw [if_neg (by simpa [List.isEmpty_iff] using h)]
  · with_unfolding_all decide

theorem confidence_is_mean_witness :
    _calculate_confidence [exChunk]
        = ([exChunk].map (fun c => c.similarity)).sum / (([exChunk] : List Chunk).length : ℚ)
  ∧ _calculate_confidence [] = 0
  ∧ _calculate_confidence
      [{ exChunk with similarity := 9/10 }, { exChunk with similarity := 8/10 },
       { exChunk with similarity := 7/10 }] = 8/10 :=
  confidence_is_mean [exChunk] (by simp)

end Husqbot
